import Mathlib

/-!
Verification of the klave-network CLI (Rust) against its natural-language
specification.  The development shallowly embeds the relevant parts of the
source:

* `src/util/template.rs` — token substitution (`update_file`, the literal
  `str::replace` calls) and the scaffolding steps of `create_template`,
  modelled on an association-list file tree;
* `src/util/git.rs` — `find_github_profile_url` over an explicit network
  outcome;
* `src/commands/build.rs` — `resolve_package_manager`, the per-application
  build loop of `execute`, the summary and the process exit code, with the
  file system, tool probes, prompts and subprocess outcomes supplied as an
  explicit environment;
* `src/commands/create.rs` — the `create` command's control flow as an
  event trace.

Machine strings are `List Char`; file contents and paths are `List Char`
as well, so that Rust's byte-wise `str::replace` and path-prefix handling
can be reasoned about with Mathlib's list lemmas.
-/

/- ------------------------------------------------------------------ -/
/- JSON values, as produced by serde_json (`serde_json::Value`).       -/
/- ------------------------------------------------------------------ -/

inductive Json where
  | null : Json
  | bool : Bool → Json
  | num : Int → Json
  | str : String → Json
  | arr : List Json → Json
  | obj : List (String × Json) → Json

/-- Model of `Value::get(key)` on an object (None on other variants). -/
def Json.getField : Json → String → Option Json
  | .obj fields, key => fields.lookup key
  | _, _ => none

/-- Model of `Value::as_str`. -/
def Json.asStr : Json → Option String
  | .str s => some s
  | _ => none

/-- Model of `v.get(key).and_then(|s| s.as_str())`. -/
def jsonStr (v : Json) (key : String) : Option String :=
  (v.getField key).bind Json.asStr

/- ------------------------------------------------------------------ -/
/- Rust `str::replace`, on `List Char`.                                -/
/- The recursion is bounded by an explicit fuel equal to the length of -/
/- the scanned text (each step consumes at least one character), which -/
/- keeps the definition structurally recursive and executable.         -/
/- ------------------------------------------------------------------ -/

def replaceFuel : Nat → List Char → List Char → List Char → List Char
  | 0, _, _, s => s
  | _ + 1, _, _, [] => []
  | fuel + 1, pat, rep, c :: rest =>
    if pat.isPrefixOf (c :: rest) then
      rep ++ replaceFuel fuel pat rep (rest.drop (pat.length - 1))
    else
      c :: replaceFuel fuel pat rep rest

/-- Rust `str::replace`: leftmost, non-overlapping matches of `pat` in `s`
are replaced by `rep`.  The empty pattern matches at every character
boundary, exactly as in Rust. -/
def rustReplace (s pat rep : List Char) : List Char :=
  if pat.isEmpty then rep ++ (s.map (fun c => c :: rep)).flatten
  else replaceFuel s.length pat rep s

/-- The `for (pattern, replacement) in replacements` loop of
`update_file` in `src/util/template.rs`: the pairs are applied to the
content sequentially. -/
def applyReplacements (content : List Char) (rs : List (List Char × List Char)) : List Char :=
  rs.foldl (fun acc pr => rustReplace acc pr.1 pr.2) content

/- ------------------------------------------------------------------ -/
/- File-tree model for `src/util/template.rs`.                         -/
/- A tree is an association list from file paths (slash-separated,     -/
/- relative to the target directory) to file contents.                 -/
/- ------------------------------------------------------------------ -/

abbrev FilePath' := List Char

abbrev FileTree := List (FilePath' × List Char)

/-- Model of `Path::exists()` for a file of the tree. -/
def fileExists (t : FileTree) (p : FilePath') : Bool :=
  t.any (fun kv => kv.1 == p)

/-- Rewrite the content of the file at `p` with `g`; other entries are
untouched.  This models a read/transform/write of one file. -/
def mapContent (t : FileTree) (p : FilePath') (g : List Char → List Char) : FileTree :=
  t.map (fun kv => if kv.1 == p then (kv.1, g kv.2) else kv)

inductive TemplateError where
  | fileNotFound : FilePath' → TemplateError
  | appDirMissing : FilePath' → TemplateError
deriving DecidableEq

/-- Model of `update_file` in `src/util/template.rs`: fails when the file
is absent, otherwise applies the replacement pairs sequentially and writes
the result back. -/
def update_file (t : FileTree) (p : FilePath') (rs : List (List Char × List Char)) :
    Except TemplateError FileTree :=
  if fileExists t p then .ok (mapContent t p (fun c => applyReplacements c rs))
  else .error (.fileNotFound p)

/-- The guarded `if path.exists() { read / replace / write }` blocks of
`create_template`: apply the replacements only when the file exists. -/
def replaceIfExists (t : FileTree) (p : FilePath') (rs : List (List Char × List Char)) :
    FileTree :=
  if fileExists t p then mapContent t p (fun c => applyReplacements c rs) else t

/-- Model of `fs::rename(old, new)` applied to a directory (or file): a
path equal to `old` becomes `new`, a path below `old` keeps its relative
part below `new`. -/
def renameKey (old new : FilePath') (p : FilePath') : FilePath' :=
  if p == old then new
  else if (old ++ ['/']).isPrefixOf p then new ++ ['/'] ++ p.drop (old.length + 1)
  else p

/-- A path is "present as a directory or file" when some tree entry is the
path itself or lies below it; this models `old_app_dir.exists()`. -/
def dirPresent (t : FileTree) (d : FilePath') : Bool :=
  t.any (fun kv => kv.1 == d || (d ++ ['/']).isPrefixOf kv.1)

/-- The rename step of `create_template`: fails with the
"App directory not found" error when the placeholder is absent. -/
def renameDir (t : FileTree) (old new : FilePath') : Except TemplateError FileTree :=
  if dirPresent t old then .ok (t.map (fun kv => (renameKey old new kv.1, kv.2)))
  else .error (.appDirMissing old)

/- Paths and tokens used by `create_template`. -/

def klaveJsonPath : FilePath' := "klave.json".data

def packageJsonPath : FilePath' := "package.json".data

def cargoTomlPath : FilePath' := "Cargo.toml".data

def rustTemplateDir : FilePath' := "apps/rust-template".data

def appCargoTomlPath : FilePath' := "apps/rust-template/Cargo.toml".data

def bindingsPath : FilePath' := "apps/rust-template/src/bindings.rs".data

def helloWorldDir : FilePath' := "apps/hello_world".data

def slugToken : List Char := "\x7b\x7bKLAVE_APP_SLUG\x7d\x7d".data

def descriptionToken : List Char := "\x7b\x7bKLAVE_APP_DESCRIPTION\x7d\x7d".data

def versionToken : List Char := "\x7b\x7bKLAVE_APP_VERSION\x7d\x7d".data

def authorToken : List Char := "\x7b\x7bKLAVE_APP_AUTHOR\x7d\x7d".data

def licenseToken : List Char := "\x7b\x7bKLAVE_APP_LICENSE\x7d\x7d".data

def repoToken : List Char := "\x7b\x7bKLAVE_APP_REPO\x7d\x7d".data

def sdkVersionToken : List Char := "\x7b\x7bKLAVE_SDK_CURRENT_VERSION\x7d\x7d".data

/-- The replacement pairs applied to `klave.json`. -/
def klavePairs (projectName description : String) : List (List Char × List Char) :=
  [(slugToken, projectName.data),
   (descriptionToken, description.data),
   (versionToken, "0.0.1".data)]

/-- The replacement pairs applied to `package.json` when it exists. -/
def packagePairs (projectName description authorName authorEmail authorUrl repoUrl : String) :
    List (List Char × List Char) :=
  [(slugToken, projectName.data),
   (descriptionToken, description.data),
   (versionToken, "0.0.1".data),
   (authorToken, (authorName ++ " <" ++ authorEmail ++ "> (" ++ authorUrl ++ ")").data),
   (licenseToken, "MIT".data),
   (repoToken, repoUrl.data),
   (sdkVersionToken, "*".data)]

/-- The placeholder application directory of each template variant. -/
def placeholderDir (templateType : String) : FilePath' :=
  if templateType == "rust" then rustTemplateDir else helloWorldDir

/-- The `workspace.members` rewrite of the top-level `Cargo.toml`. -/
def cargoMembersPairs (projectName : String) : List (List Char × List Char) :=
  [("members = [\"apps/rust-template\"]".data,
    ("members = [\"apps/" ++ projectName ++ "\"]").data)]

/-- The two rewrites of `apps/rust-template/Cargo.toml`. -/
def appCargoPairs (projectName : String) : List (List Char × List Char) :=
  [("name = \"rust-template\"".data, ("name = \"" ++ projectName ++ "\"").data),
   ("package = \"component:rust-template\"".data,
    ("package = \"component:" ++ projectName ++ "\"").data)]

/-- The two rewrites of `apps/rust-template/src/bindings.rs` (the second
pattern starts with the `\x0b` byte of the embedded component name). -/
def bindingsPairs (projectName : String) : List (List Char × List Char) :=
  [("component:rust-template/rust-template".data,
    ("component:" ++ projectName ++ "/" ++ projectName).data),
   ("\x0brust-template".data, ("\x0b" ++ projectName).data)]

/-- The three guarded rust-specific rewrites of `create_template`. -/
def rustStep (t : FileTree) (projectName : String) : FileTree :=
  let ta := replaceIfExists t cargoTomlPath (cargoMembersPairs projectName)
  let tb := replaceIfExists ta appCargoTomlPath (appCargoPairs projectName)
  replaceIfExists tb bindingsPath (bindingsPairs projectName)

/-- Model of `create_template` in `src/util/template.rs`, starting from the
tree obtained by copying the extracted template into the target directory:
token substitution on `klave.json` (mandatory) and `package.json` (when
present), the three literal rust-specific rewrites (each guarded by file
existence), then the rename of the placeholder application directory to
`apps/<project_name>` (failing when the placeholder is absent). -/
def create_template (t : FileTree)
    (projectName description authorName authorEmail authorUrl repoUrl templateType : String) :
    Except TemplateError FileTree :=
  match update_file t klaveJsonPath (klavePairs projectName description) with
  | .error e => .error e
  | .ok t1 =>
    let t2 := replaceIfExists t1 packageJsonPath
      (packagePairs projectName description authorName authorEmail authorUrl repoUrl)
    let t3 := if templateType == "rust" then rustStep t2 projectName else t2
    renameDir t3 (placeholderDir templateType) ("apps/".data ++ projectName.data)

/-- The files `create_template` may rewrite, selected by name. -/
def namedPaths : List FilePath' :=
  [klaveJsonPath, packageJsonPath, cargoTomlPath, appCargoTomlPath, bindingsPath]

/-- The tree after all substitution steps of `create_template`, right
before the placeholder rename (assuming `klave.json` exists). -/
def postTree (t : FileTree) (pn d an ae au ru ttype : String) : FileTree :=
  let t1 := mapContent t klaveJsonPath (fun c => applyReplacements c (klavePairs pn d))
  let t2 := replaceIfExists t1 packageJsonPath (packagePairs pn d an ae au ru)
  if ttype == "rust" then rustStep t2 pn else t2

/- ------------------------------------------------------------------ -/
/- `src/util/git.rs`: `find_github_profile_url`.                       -/
/- ------------------------------------------------------------------ -/

/-- Outcome of the single outbound HTTPS call: the request errors, or a
response arrives whose JSON decoding either fails (`response none`) or
yields a value. -/
inductive NetOutcome where
  | reqError : NetOutcome
  | response : Option Json → NetOutcome

/-- The login extracted from the GitHub search response:
`json.get("items").and_then(as_array)`, `first()`,
`get("login").and_then(as_str)`. -/
def firstLoginOf (j : Json) : Option String :=
  match j.getField "items" with
  | some (.arr items) =>
    match items.head? with
    | some item => jsonStr item "login"
    | none => none
  | _ => none

/-- Model of `find_github_profile_url` in `src/util/git.rs`, parameterised
by the outcome of the network call. -/
def find_github_profile_url (email : String) (net : NetOutcome) : String :=
  if email = "" then ""
  else
    match net with
    | .reqError => ""
    | .response none => ""
    | .response (some j) =>
      match firstLoginOf j with
      | some login => "https://github.com/" ++ login
      | none => ""

/- ------------------------------------------------------------------ -/
/- `src/commands/build.rs`.                                            -/
/- ------------------------------------------------------------------ -/

/-- What the build command can observe about an application directory. -/
structure DirInfo where
  dirExists : Bool
  hasCargoToml : Bool
  hasTsconfig : Bool

/-- A subprocess invocation: program, arguments and working directory
(`"."` stands for the project's current working directory). -/
structure SpawnCmd where
  program : String
  args : List String
  dir : String
deriving DecidableEq

/-- Outcome of spawning a subprocess: the spawn itself fails (the only
case in which `run_command`'s `Output` result is an error), or the child
runs to completion with some exit code. -/
inductive SpawnOutcome where
  | spawnError : SpawnOutcome
  | exited : Nat → SpawnOutcome
deriving DecidableEq

/-- Environment of one run of the build command: file-system facts, tool
probes, prompt answers and subprocess outcomes. -/
structure BuildEnv where
  dirInfo : String → DirInfo
  spawn : SpawnCmd → SpawnOutcome
  hasPackageJson : Bool
  yarnLock : Bool
  pnpmLock : Bool
  packageLock : Bool
  toolNode : Bool
  toolNpm : Bool
  toolCargo : Bool
  toolCargoComponent : Bool
  confirmMissingTools : Bool
  nodeModulesExists : Bool
  confirmInstall : Bool
  confirmContinueAnyway : Bool
  installOk : Bool

/-- Model of `resolve_package_manager`: lockfile presence in the current
working directory, with yarn before pnpm before npm, npm by default. -/
def resolve_package_manager (env : BuildEnv) : String :=
  if env.yarnLock then "yarn"
  else if env.pnpmLock then "pnpm"
  else if env.packageLock then "npm"
  else "npm"

/-- Result record pushed for every processed application
(`BuildResult` in `src/commands/build.rs`; the elapsed time is dropped). -/
structure BuildRes where
  app : String
  success : Bool
  appType : String
deriving DecidableEq

/-- Errors that abort the whole build command before the summary. -/
inductive BuildError where
  | configInvalid : BuildError
  | appNotFound : String → List String → BuildError
  | noApplications : BuildError
  | abortedMissingTools : BuildError
  | abortedInstallFailed : BuildError
  | abortedNoInstall : BuildError
deriving DecidableEq

/-- Tool availability as used in the build loop. -/
structure Tools where
  hasNode : Bool
  hasNpm : Bool
  hasCargo : Bool
  hasCargoComponent : Bool
deriving DecidableEq

/-- Slug of an application entry:
`slug` or else `name`, defaulting to `"unknown"`. -/
def appSlug (a : Json) : String :=
  ((jsonStr a "slug").orElse (fun _ => jsonStr a "name")).getD "unknown"

/-- `rootDir` of an application entry, defaulting to `"."`. -/
def appRootDir (a : Json) : String :=
  (jsonStr a "rootDir").getD "."

/-- The application directory key: a leading `/` is stripped (the code
joins `root_dir[1..]` onto the cwd in that case, `root_dir` otherwise;
`/` is a single byte, so dropping one byte drops the character). -/
def appDirOf (a : Json) : String :=
  match (appRootDir a).data with
  | '/' :: rest => String.mk rest
  | _ => appRootDir a

/-- The filter predicate of the `--app` option: the entry's `slug` or
`name` string equals the requested name. -/
def matchesFilter (name : String) (a : Json) : Bool :=
  jsonStr a "slug" == some name || jsonStr a "name" == some name

/-- The list printed by the `ApplicationNotFound` error: for each entry its
`slug`, or else its `name`, entries with neither contributing nothing. -/
def knownApps (apps : List Json) : List String :=
  apps.filterMap (fun a => (jsonStr a "slug").orElse (fun _ => jsonStr a "name"))

/-- Manifest reading and `--app` filtering (`execute` lines 138-178):
extract the `applications` array, keep the matching entries when a filter
is given, and fail with the enumerating error when nothing matches. -/
def selectApps (config : Json) (filter : Option String) :
    Except BuildError (List Json) :=
  match config.getField "applications" with
  | some (.arr apps) =>
    match filter with
    | some name =>
      let filtered := apps.filter (matchesFilter name)
      if filtered.isEmpty then .error (.appNotFound name (knownApps apps))
      else .ok filtered
    | none => .ok apps
  | _ => .error .configInvalid

/-- The tool-availability gate (`execute` lines 209-285): under
`--skip-checks` all tools are assumed present; otherwise the probes run
and, when a needed tool is missing, the user must confirm to continue. -/
def toolGate (env : BuildEnv) (skipChecks : Bool) (apps : List Json) :
    Except BuildError Tools :=
  if skipChecks then .ok ⟨true, true, true, true⟩
  else
    let hasCargoComponent := env.toolCargo && env.toolCargoComponent
    let needsRust := apps.any (fun a => (env.dirInfo (appDirOf a)).hasCargoToml)
    let needsAs := apps.any (fun a => (env.dirInfo (appDirOf a)).hasTsconfig)
    let missingAny :=
      (needsRust && !env.toolCargo) || (needsRust && !hasCargoComponent) ||
      (needsAs && !env.toolNode) || (needsAs && !env.toolNpm)
    if missingAny && !env.confirmMissingTools then .error .abortedMissingTools
    else .ok ⟨env.toolNode, env.toolNpm, env.toolCargo, hasCargoComponent⟩

/-- The dependency-installation gate (`execute` lines 294-345). -/
def depGate (env : BuildEnv) (skipChecks : Bool) (apps : List Json) :
    Except BuildError Unit :=
  let needsDeps := env.hasPackageJson &&
    apps.any (fun a => (env.dirInfo (appDirOf a)).hasTsconfig)
  if needsDeps && !env.nodeModulesExists then
    if skipChecks then
      if env.installOk then .ok () else .error .abortedInstallFailed
    else if env.confirmInstall then
      if env.installOk then .ok () else .error .abortedInstallFailed
    else if env.confirmContinueAnyway then .ok ()
    else .error .abortedNoInstall
  else .ok ()

/-- The `cargo component build` invocation for a rust application. -/
def cargoBuildCmd (dir : String) : SpawnCmd :=
  ⟨"cargo", ["component", "build", "--target", "wasm32-unknown-unknown", "--release"], dir⟩

/-- The package-manager build invocation for an AssemblyScript
application; it runs in the current working directory. -/
def asBuildCmd (packageManager slug : String) : SpawnCmd :=
  if packageManager = "npm" then ⟨"npm", ["run", "build", "--", "--app", slug], "."⟩
  else if packageManager = "yarn" then ⟨"yarn", ["build", "--app", slug], "."⟩
  else if packageManager = "pnpm" then ⟨"pnpm", ["build", "--app", slug], "."⟩
  else ⟨"npm", ["run", "build"], "."⟩

/-- The body of the per-application loop of `execute` (lines 360-553).
Returns the `BuildResult` pushed for the application together with the
subprocesses spawned for it.  Note that when a build subprocess spawns
successfully, `run_command` returns `Ok` regardless of the child's exit
status, so the application is recorded as successful. -/
def processApp (env : BuildEnv) (tools : Tools) (packageManager : String) (a : Json) :
    BuildRes × List SpawnCmd :=
  let slug := appSlug a
  let dir := appDirOf a
  let info := env.dirInfo dir
  if !info.dirExists then (⟨slug, false, "unknown"⟩, [])
  else
    let ty :=
      if info.hasCargoToml then "rust"
      else if info.hasTsconfig then "assemblyscript"
      else "unknown"
    if ty = "unknown" then (⟨slug, false, "unknown"⟩, [])
    else if ty = "rust" then
      if !tools.hasCargo then (⟨slug, false, ty⟩, [])
      else if !tools.hasCargoComponent then (⟨slug, false, ty⟩, [])
      else
        match env.spawn (cargoBuildCmd dir) with
        | .spawnError => (⟨slug, false, ty⟩, [cargoBuildCmd dir])
        | .exited _ => (⟨slug, true, ty⟩, [cargoBuildCmd dir])
    else
      if !tools.hasNode then (⟨slug, false, ty⟩, [])
      else if !tools.hasNpm then (⟨slug, false, ty⟩, [])
      else
        match env.spawn (asBuildCmd packageManager slug) with
        | .spawnError => (⟨slug, false, ty⟩, [asBuildCmd packageManager slug])
        | .exited _ => (⟨slug, true, ty⟩, [asBuildCmd packageManager slug])

/-- The summary printed after the loop, and the data the exit code is
computed from. -/
structure Summary where
  results : List BuildRes
  spawns : List SpawnCmd
  total : Nat
  successful : Nat
deriving DecidableEq

/-- The build loop over the selected applications followed by the summary
computation (lines 357-570): one result is pushed per application,
independently of the other applications' outcomes. -/
def orchestrate (env : BuildEnv) (tools : Tools) (packageManager : String)
    (apps : List Json) : Summary :=
  let prs := apps.map (processApp env tools packageManager)
  let results := prs.map Prod.fst
  { results := results
    spawns := (prs.map Prod.snd).flatten
    total := results.length
    successful := (results.filter (fun r => r.success)).length }

/-- Model of the build command `execute` (given a parsed `klave.json`):
select the applications, run the tool and dependency gates, then build
each application and produce the summary. -/
def buildExecute (config : Json) (filter : Option String) (skipChecks : Bool)
    (env : BuildEnv) : Except BuildError Summary :=
  match selectApps config filter with
  | .error e => .error e
  | .ok apps =>
    if apps.isEmpty then .error .noApplications
    else
      match toolGate env skipChecks apps with
      | .error e => .error e
      | .ok tools =>
        let pm := if env.hasPackageJson then resolve_package_manager env else ""
        match depGate env skipChecks apps with
        | .error e => .error e
        | .ok _ => .ok (orchestrate env tools pm apps)

/-- The process exit code of a run of the build command: 1 on a top-level
error (`main` prints and exits 1), otherwise 1 when some build failed
(`std::process::exit(1)`) and 0 when all succeeded. -/
def buildExitCode (config : Json) (filter : Option String) (skipChecks : Bool)
    (env : BuildEnv) : Nat :=
  match buildExecute config filter skipChecks env with
  | .error _ => 1
  | .ok s => if s.successful < s.total then 1 else 0

/- ------------------------------------------------------------------ -/
/- `src/commands/create.rs`: the create command as an event trace.     -/
/- ------------------------------------------------------------------ -/

/-- Observable actions of the create command, in program order. -/
inductive CreateEvent where
  | prompt : String → CreateEvent
  | gitConfigRead : String → CreateEvent
  | networkLookup : CreateEvent
  | mkdirAll : String → CreateEvent
  | templateCreated : String → CreateEvent
  | gitInit : String → CreateEvent
  | installDeps : String → CreateEvent
deriving DecidableEq

inductive CreateError where
  | alreadyInKlaveProject : CreateError
  | templateFailed : CreateError
deriving DecidableEq

/-- Answers the interactive prompts would return. -/
structure CreateEnv where
  templateAnswer : String
  dirAnswer : String
  nameAnswer : String
  confirmGit : Bool
  confirmInstall : Bool

/-- Model of the create command `execute` in `src/commands/create.rs` as
the list of events it performs, paired with its error outcome.  The
`klave.json` guard comes first: when the file exists the command returns
the "Already in a Klave project" error having performed no event at all. -/
def createExecute (klaveJsonExists : Bool) (name : Option String)
    (templateType : Option String) (noGit noInstall : Bool) (dir : Option String)
    (env : CreateEnv) (templateOk : Bool) :
    List CreateEvent × Option CreateError :=
  if klaveJsonExists then ([], some .alreadyInKlaveProject)
  else
    let (tEvents, projectTemplate) :=
      match templateType with
      | none => ([CreateEvent.prompt "language"], env.templateAnswer)
      | some t => ([], t)
    let (dEvents, projectDir) :=
      match dir with
      | some d => ([], d)
      | none =>
        match name with
        | none => ([CreateEvent.prompt "directory"], env.dirAnswer)
        | some n => ([], "./" ++ n)
    let (nEvents, _projectName) :=
      match name with
      | some n => ([], n)
      | none => ([CreateEvent.prompt "name"], env.nameAnswer)
    let metaEvents :=
      [CreateEvent.gitConfigRead "user.name", CreateEvent.gitConfigRead "user.email",
       CreateEvent.prompt "description", CreateEvent.prompt "author name",
       CreateEvent.prompt "author email", CreateEvent.networkLookup,
       CreateEvent.prompt "author url", CreateEvent.prompt "repo url"]
    let gitPromptEvents := if noGit then [] else [CreateEvent.prompt "init git"]
    let initGit := if noGit then false else env.confirmGit
    let installPromptEvents :=
      if noInstall || projectTemplate != "assemblyscript" then []
      else [CreateEvent.prompt "install deps"]
    let installDeps :=
      if noInstall || projectTemplate != "assemblyscript" then false
      else env.confirmInstall
    let preEvents := tEvents ++ dEvents ++ nEvents ++ metaEvents ++
      gitPromptEvents ++ installPromptEvents ++ [CreateEvent.mkdirAll projectDir]
    if templateOk then
      (preEvents ++ [CreateEvent.templateCreated projectDir] ++
        (if initGit then [CreateEvent.gitInit projectDir] else []) ++
        (if installDeps then [CreateEvent.installDeps projectDir] else []),
       none)
    else (preEvents, some .templateFailed)

/- ------------------------------------------------------------------ -/
/- Concrete fixtures used by witnesses and counterexamples.            -/
/- ------------------------------------------------------------------ -/

/-- A manifest entry with slug `app1` and root directory `app1`. -/
def appOne : Json := .obj [("slug", .str "app1"), ("rootDir", .str "app1")]

def cfgOneApp : Json := .obj [("applications", .arr [appOne])]

def cfgDupApps : Json := .obj [("applications", .arr [appOne, appOne])]

def cfgNoApps : Json := .obj [("applications", .arr [])]

/-- An environment in which every application directory exists with a
`Cargo.toml`, every tool probe succeeds, and every spawned subprocess
starts successfully but exits with status 1. -/
def envExitOne : BuildEnv where
  dirInfo := fun _ => ⟨true, true, false⟩
  spawn := fun _ => .exited 1
  hasPackageJson := false
  yarnLock := false
  pnpmLock := false
  packageLock := false
  toolNode := true
  toolNpm := true
  toolCargo := true
  toolCargoComponent := true
  confirmMissingTools := false
  nodeModulesExists := true
  confirmInstall := true
  confirmContinueAnyway := true
  installOk := true

/-- An environment whose application directories exist but contain neither
`Cargo.toml` nor `tsconfig.json`. -/
def envUnknownApp : BuildEnv where
  dirInfo := fun _ => ⟨true, false, false⟩
  spawn := fun _ => .exited 0
  hasPackageJson := false
  yarnLock := false
  pnpmLock := false
  packageLock := false
  toolNode := true
  toolNpm := true
  toolCargo := true
  toolCargoComponent := true
  confirmMissingTools := false
  nodeModulesExists := true
  confirmInstall := true
  confirmContinueAnyway := true
  installOk := true

/-- A two-file AssemblyScript template tree: `klave.json` holding the slug
token, plus a source file under the placeholder directory that also
contains the slug token. -/
def sampleAsTree : FileTree :=
  [(klaveJsonPath, slugToken),
   ("apps/hello_world/index.ts".data, "slug: \x7b\x7bKLAVE_APP_SLUG\x7d\x7d end".data)]

/-- A two-file rust template tree. -/
def sampleRustTree : FileTree :=
  [(klaveJsonPath, slugToken),
   (appCargoTomlPath, "name = \"rust-template\"".data)]

/-- Text containing the slug token twice. -/
def sampleText : List Char :=
  "A\x7b\x7bKLAVE_APP_SLUG\x7d\x7dB\x7b\x7bKLAVE_APP_SLUG\x7d\x7dC".data

/-- A decoded GitHub user-search response with one item. -/
def sampleSearchJson : Json :=
  .obj [("items", .arr [.obj [("login", .str "octocat")]])]

/- ------------------------------------------------------------------ -/
/- Lemmas about the replacement engine.                                -/
/- ------------------------------------------------------------------ -/

/-- When the pattern occurs nowhere in the text, the scan copies the text
unchanged, at any fuel. -/
theorem replaceFuel_eq_of_no_occurrence (pat rep : List Char) :
    ∀ (fuel : Nat) (s : List Char), ¬ pat <:+: s → replaceFuel fuel pat rep s = s := by
  intro fuel
  induction fuel with
  | zero => intro s _; rfl
  | succ f ih =>
    intro s hs
    match s with
    | [] => rfl
    | c :: rest =>
      have hp : pat.isPrefixOf (c :: rest) = false := by
        by_contra hne
        have : pat.isPrefixOf (c :: rest) = true := by
          revert hne; cases pat.isPrefixOf (c :: rest) <;> simp
        exact hs ( List.isPrefixOf_iff_prefix.mp this).isInfix
      simp only [replaceFuel, hp, Bool.false_eq_true, if_false]
      have : ¬ pat <:+: rest := fun h => hs (List.infix_cons h)
      rw [ih rest this]

/-- If a string whose characters all avoid `rep` is a prefix of the scan's
output, it is a prefix of the scanned text (`rep` nonempty). -/
theorem prefix_src_of_prefix_out (pat rep : List Char) (hrep : rep ≠ []) :
    ∀ (fuel : Nat) (q t : List Char), (∀ a ∈ q, a ∉ rep) →
      q <+: replaceFuel fuel pat rep t → q <+: t := by
  intro fuel
  induction fuel with
  | zero => intro q t _ h; exact h
  | succ f ih =>
    intro q t hq h
    match t with
    | [] =>
      simp only [replaceFuel] at h
      simpa using h
    | c :: rest =>
      by_cases hp : pat.isPrefixOf (c :: rest)
      · simp only [replaceFuel, hp, if_true] at h
        match q with
        | [] => exact List.nil_prefix
        | a :: q' =>
          obtain ⟨b, rep', hb⟩ := List.exists_cons_of_ne_nil hrep
          rw [hb, List.cons_append] at h
          have := ( List.cons_prefix_cons.mp h).1
          have ha : a ∈ rep := by rw [hb, this]; exact List.mem_cons_self _ _
          exact absurd ha (hq a (List.mem_cons_self _ _))
      · simp only [replaceFuel, hp, Bool.false_eq_true, if_false] at h
        match q with
        | [] => exact List.nil_prefix
        | a :: q' =>
          obtain ⟨hac, hq'⟩ := List.cons_prefix_cons.mp h
          have : q' <+: rest :=
            ih q' rest (fun x hx => hq x (List.mem_cons_of_mem _ hx)) hq'
          exact List.cons_prefix_cons.mpr ⟨hac, this⟩

/-- A nonempty pattern whose characters avoid `rep₀` can only sit inside
the right part of `rep₀ ++ X`. -/
theorem infix_right_of_infix_append (pat : List Char) (hpat : pat ≠ []) :
    ∀ (rep₀ X : List Char), (∀ a ∈ pat, a ∉ rep₀) →
      pat <:+: rep₀ ++ X → pat <:+: X := by
  intro rep₀
  induction rep₀ with
  | nil => intro X _ h; simpa using h
  | cons b r' ih =>
    intro X hd h
    rw [List.cons_append] at h
    rcases List.infix_cons_iff.mp h with hpre | hrest
    · obtain ⟨p₀, pt, hpeq⟩ := List.exists_cons_of_ne_nil hpat
      rw [hpeq] at hpre
      have hb := ( List.cons_prefix_cons.mp hpre).1
      have hmem : p₀ ∈ pat := by rw [hpeq]; exact List.mem_cons_self _ _
      exact absurd (show p₀ ∈ b :: r' by rw [hb]; exact List.mem_cons_self _ _)
        (hd p₀ hmem)
    · exact ih X (fun a ha => fun hx => hd a ha (List.mem_cons_of_mem _ hx)) hrest

/-- Completeness of the scan: with a nonempty pattern and a nonempty
replacement sharing no character with the pattern, no occurrence of the
pattern survives in the output. -/
theorem not_infix_replaceFuel (pat rep : List Char) (hpat : pat ≠ []) (hrep : rep ≠ [])
    (hd : ∀ a ∈ pat, a ∉ rep) :
    ∀ (fuel : Nat) (s : List Char), s.length ≤ fuel →
      ¬ pat <:+: replaceFuel fuel pat rep s := by
  intro fuel
  induction fuel with
  | zero =>
    intro s hs h
    have : s = [] := List.length_eq_zero.mp (Nat.le_zero.mp hs)
    subst this
    exact hpat (List.infix_nil.mp h)
  | succ f ih =>
    intro s hs h
    match s with
    | [] =>
      simp only [replaceFuel] at h
      exact hpat (List.infix_nil.mp h)
    | c :: rest =>
      have hlen : rest.length ≤ f := Nat.le_of_succ_le_succ hs
      by_cases hp : pat.isPrefixOf (c :: rest)
      · simp only [replaceFuel, hp, if_true] at h
        have hx := infix_right_of_infix_append pat hpat rep _ hd h
        have hdroplen : (rest.drop (pat.length - 1)).length ≤ f := by
          rw [List.length_drop]
          exact Nat.le_trans (Nat.sub_le _ _) hlen
        exact ih _ hdroplen hx
      · simp only [replaceFuel, hp, Bool.false_eq_true, if_false] at h
        rcases List.infix_cons_iff.mp h with hpre | hrest
        · obtain ⟨p₀, pt, hpeq⟩ := List.exists_cons_of_ne_nil hpat
          rw [hpeq] at hpre
          obtain ⟨hbc, hpt⟩ := List.cons_prefix_cons.mp hpre
          cases pt with
          | nil =>
            have : pat.isPrefixOf (c :: rest) = true := by
              rw [ List.isPrefixOf_iff_prefix, hpeq, hbc]
              exact List.cons_prefix_cons.mpr ⟨rfl, List.nil_prefix⟩
            exact hp this
          | cons a pt' =>
            have hchars : ∀ x ∈ a :: pt', x ∉ rep := by
              intro x hx
              exact hd x (by rw [hpeq]; exact List.mem_cons_of_mem _ hx)
            have hsrc : (a :: pt') <+: rest :=
              prefix_src_of_prefix_out (p₀ :: a :: pt') rep hrep f (a :: pt') rest hchars hpt
            have : pat.isPrefixOf (c :: rest) = true := by
              rw [ List.isPrefixOf_iff_prefix, hpeq, hbc]
              exact List.cons_prefix_cons.mpr ⟨rfl, hsrc⟩
            exact hp this
        · exact ih rest hlen hrest

/-- If the pattern occurs nowhere in `s`, `str::replace` returns `s`. -/
theorem rustReplace_eq_self (s pat rep : List Char) (h : ¬ pat <:+: s) :
    rustReplace s pat rep = s := by
  have hpat : pat ≠ [] := by
    intro he
    exact h (he ▸ List.nil_infix)
  have : pat.isEmpty = false := by
    cases pat with
    | nil => exact absurd rfl hpat
    | cons a t => rfl
  unfold rustReplace
  rw [this]
  simp only [Bool.false_eq_true, if_false]
  exact replaceFuel_eq_of_no_occurrence pat rep s.length s h

/-- No occurrence of the pattern survives `str::replace` when the
replacement is nonempty and shares no character with the pattern. -/
theorem rustReplace_no_occurrence (s pat rep : List Char) (hpat : pat ≠ [])
    (hrep : rep ≠ []) (hd : ∀ a ∈ pat, a ∉ rep) :
    ¬ pat <:+: rustReplace s pat rep := by
  have : pat.isEmpty = false := by
    cases pat with
    | nil => exact absurd rfl hpat
    | cons a t => rfl
  unfold rustReplace
  rw [this]
  simp only [Bool.false_eq_true, if_false]
  exact not_infix_replaceFuel pat rep hpat hrep hd s.length s (Nat.le_refl _)

/- ------------------------------------------------------------------ -/
/- Lemmas about the file-tree operations.                              -/
/- ------------------------------------------------------------------ -/

/-- Rewriting one file's content changes no key, so any predicate on keys
is unaffected. -/
theorem anyKey_mapContent (t : FileTree) (p : FilePath') (g : List Char → List Char)
    (f : FilePath' → Bool) :
    ((mapContent t p g).any fun kv => f kv.1) = (t.any fun kv => f kv.1) := by
  induction t with
  | nil => rfl
  | cons kv rest ih =>
    simp only [mapContent, List.map_cons, List.any_cons] at *
    by_cases hkv : kv.1 == p
    · rw [if_pos hkv]
      rw [ih]
    · rw [if_neg hkv]
      rw [ih]

theorem fileExists_mapContent (t : FileTree) (p q : FilePath') (g : List Char → List Char) :
    fileExists (mapContent t p g) q = fileExists t q :=
  anyKey_mapContent t p g (fun k => k == q)

theorem dirPresent_mapContent (t : FileTree) (p d : FilePath') (g : List Char → List Char) :
    dirPresent (mapContent t p g) d = dirPresent t d :=
  anyKey_mapContent t p g (fun k => k == d || (d ++ ['/']).isPrefixOf k)

theorem fileExists_replaceIfExists (t : FileTree) (p q : FilePath')
    (rs : List (List Char × List Char)) :
    fileExists (replaceIfExists t p rs) q = fileExists t q := by
  unfold replaceIfExists
  by_cases h : fileExists t p
  · rw [if_pos h, fileExists_mapContent]
  · rw [if_neg h]

theorem dirPresent_replaceIfExists (t : FileTree) (p d : FilePath')
    (rs : List (List Char × List Char)) :
    dirPresent (replaceIfExists t p rs) d = dirPresent t d := by
  unfold replaceIfExists
  by_cases h : fileExists t p
  · rw [if_pos h, dirPresent_mapContent]
  · rw [if_neg h]

/-- Bool coercion helpers. -/
theorem bool_eq_false {b : Bool} (h : ¬ b = true) : b = false := by
  cases b
  · rfl
  · exact absurd rfl h

theorem isPrefixOf_eq_true_of {a b : List Char} (h : a <+: b) :
    a.isPrefixOf b = true :=
  List.isPrefixOf_iff_prefix.mpr h

theorem isPrefixOf_eq_false_of {a b : List Char} (h : ¬ a <+: b) :
    a.isPrefixOf b = false := by
  cases hh : List.isPrefixOf a b
  · rfl
  · exact absurd ( List.isPrefixOf_iff_prefix.mp hh) h

/-- An entry with a key other than the rewritten file survives unchanged. -/
theorem mem_mapContent_of_ne (t : FileTree) (p : FilePath') (g : List Char → List Char)
    (x : FilePath') (c : List Char) (hmem : (x, c) ∈ t) (hne : x ≠ p) :
    (x, c) ∈ mapContent t p g := by
  have himg := List.mem_map_of_mem
    (fun kv : FilePath' × List Char => if kv.1 == p then (kv.1, g kv.2) else kv) hmem
  have heq : (fun kv : FilePath' × List Char =>
      if kv.1 == p then (kv.1, g kv.2) else kv) (x, c) = (x, c) := by
    simp [hne]
  exact heq ▸ himg

/-- The rewritten file's entry carries the transformed content. -/
theorem mem_mapContent_self (t : FileTree) (p : FilePath') (g : List Char → List Char)
    (c : List Char) (hmem : (p, c) ∈ t) :
    (p, g c) ∈ mapContent t p g := by
  have himg := List.mem_map_of_mem
    (fun kv : FilePath' × List Char => if kv.1 == p then (kv.1, g kv.2) else kv) hmem
  have heq : (fun kv : FilePath' × List Char =>
      if kv.1 == p then (kv.1, g kv.2) else kv) (p, c) = (p, g c) := by
    simp
  exact heq ▸ himg

theorem mem_replaceIfExists_of_ne (t : FileTree) (p : FilePath')
    (rs : List (List Char × List Char)) (x : FilePath') (c : List Char)
    (hmem : (x, c) ∈ t) (hne : x ≠ p) :
    (x, c) ∈ replaceIfExists t p rs := by
  unfold replaceIfExists
  by_cases h : fileExists t p
  · rw [if_pos h]
    exact mem_mapContent_of_ne t p _ x c hmem hne
  · rw [if_neg h]
    exact hmem

/-- A path outside the old directory is not renamed. -/
theorem renameKey_eq_self (old new p : FilePath') (h1 : p ≠ old)
    (h2 : ¬ (old ++ ['/']) <+: p) : renameKey old new p = p := by
  unfold renameKey
  rw [if_neg (by simpa using h1)]
  rw [if_neg (by simpa [ List.isPrefixOf_iff_prefix] using h2)]

/-- After the rename, no key matches the old directory, provided neither
directory path extends the other. -/
theorem renameKey_not_in_old (old new q : FilePath')
    (h1 : ¬ (old ++ ['/']) <+: (new ++ ['/']))
    (h2 : ¬ (new ++ ['/']) <+: (old ++ ['/'])) :
    ((renameKey old new q == old) || (old ++ ['/']).isPrefixOf (renameKey old new q)) = false := by
  have hne : new ≠ old := by
    intro he
    exact h1 (he ▸ List.prefix_rfl)
  unfold renameKey
  by_cases hq : q == old
  · rw [if_pos hq]
    have hno : ¬ (old ++ ['/']) <+: new := by
      intro h
      exact h1 (h.trans ( List.prefix_append _ _))
    rw [Bool.or_eq_false_iff]
    exact ⟨beq_eq_false_iff_ne.mpr hne, isPrefixOf_eq_false_of hno⟩
  · rw [if_neg hq]
    by_cases hpre : (old ++ ['/']).isPrefixOf q
    · rw [if_pos hpre]
      have hself : (new ++ ['/']) <+: (new ++ ['/']) ++ q.drop (old.length + 1) :=
        List.prefix_append _ _
      have hnoteq : new ++ ['/'] ++ q.drop (old.length + 1) ≠ old := by
        intro he
        have : (new ++ ['/']) <+: old := he ▸ hself
        exact h2 (this.trans ( List.prefix_append _ _))
      have hnopre : ¬ (old ++ ['/']) <+: (new ++ ['/'] ++ q.drop (old.length + 1)) := by
        intro hcontra
        rcases Nat.le_total (old ++ ['/']).length (new ++ ['/']).length with hle | hle
        · exact h1 ( List.prefix_of_prefix_length_le hcontra hself hle)
        · exact h2 ( List.prefix_of_prefix_length_le hself hcontra hle)
      rw [Bool.or_eq_false_iff]
      exact ⟨beq_eq_false_iff_ne.mpr hnoteq, isPrefixOf_eq_false_of hnopre⟩
    · rw [if_neg hpre]
      rw [Bool.or_eq_false_iff]
      exact ⟨bool_eq_false hq, bool_eq_false hpre⟩

/-- The image of a key inside the old directory lies inside the new one. -/
theorem renameKey_in_new (old new q : FilePath')
    (hq : (q == old || (old ++ ['/']).isPrefixOf q) = true) :
    ((renameKey old new q == new) || (new ++ ['/']).isPrefixOf (renameKey old new q)) = true := by
  unfold renameKey
  by_cases h : q == old
  · rw [if_pos h]
    simp
  · rw [if_neg h]
    have hpre : (old ++ ['/']).isPrefixOf q = true := by
      rcases Bool.or_eq_true_iff.mp hq with h' | h'
      · exact absurd h' h
      · exact h'
    rw [if_pos hpre]
    rw [Bool.or_eq_true_iff]
    exact Or.inr (isPrefixOf_eq_true_of ( List.prefix_append _ _))

theorem not_prefix_of_isPrefixOf_eq_false {a b : List Char}
    (h : a.isPrefixOf b = false) : ¬ a <+: b :=
  fun hp => Bool.false_ne_true (h.symm.trans (isPrefixOf_eq_true_of hp))

theorem dirPresent_rustStep (t : FileTree) (pn : String) (dd : FilePath') :
    dirPresent (rustStep t pn) dd = dirPresent t dd := by
  unfold rustStep
  rw [dirPresent_replaceIfExists, dirPresent_replaceIfExists, dirPresent_replaceIfExists]

theorem mem_rustStep_of_ne (t : FileTree) (pn : String) (x : FilePath') (c : List Char)
    (hmem : (x, c) ∈ t) (h1 : x ≠ cargoTomlPath) (h2 : x ≠ appCargoTomlPath)
    (h3 : x ≠ bindingsPath) : (x, c) ∈ rustStep t pn := by
  unfold rustStep
  exact mem_replaceIfExists_of_ne _ _ _ _ _
    (mem_replaceIfExists_of_ne _ _ _ _ _
      (mem_replaceIfExists_of_ne _ _ _ _ _ hmem h1) h2) h3

/-- When `klave.json` exists, `create_template` is the rename of the
substituted tree. -/
theorem create_template_eq (t : FileTree) (pn d an ae au ru ttype : String)
    (hk : fileExists t klaveJsonPath = true) :
    create_template t pn d an ae au ru ttype =
      renameDir (postTree t pn d an ae au ru ttype) (placeholderDir ttype)
        ("apps/".data ++ pn.data) := by
  have hupd : update_file t klaveJsonPath (klavePairs pn d) =
      .ok (mapContent t klaveJsonPath (fun c => applyReplacements c (klavePairs pn d))) := by
    unfold update_file
    rw [if_pos hk]
  simp only [create_template, hupd, postTree]

theorem dirPresent_postTree (t : FileTree) (pn d an ae au ru ttype : String)
    (dd : FilePath') :
    dirPresent (postTree t pn d an ae au ru ttype) dd = dirPresent t dd := by
  unfold postTree
  by_cases hrt : (ttype == "rust") = true
  · rw [if_pos hrt, dirPresent_rustStep, dirPresent_replaceIfExists, dirPresent_mapContent]
  · rw [if_neg hrt, dirPresent_replaceIfExists, dirPresent_mapContent]

theorem mem_postTree_of_ne (t : FileTree) (pn d an ae au ru ttype : String)
    (x : FilePath') (c : List Char) (hmem : (x, c) ∈ t) (hnp : x ∉ namedPaths) :
    (x, c) ∈ postTree t pn d an ae au ru ttype := by
  have hne : x ≠ klaveJsonPath ∧ x ≠ packageJsonPath ∧ x ≠ cargoTomlPath ∧
      x ≠ appCargoTomlPath ∧ x ≠ bindingsPath := by
    simpa [namedPaths] using hnp
  have s2 : (x, c) ∈ replaceIfExists
      (mapContent t klaveJsonPath (fun c => applyReplacements c (klavePairs pn d)))
      packageJsonPath (packagePairs pn d an ae au ru) :=
    mem_replaceIfExists_of_ne _ _ _ _ _
      (mem_mapContent_of_ne _ _ _ _ _ hmem hne.1) hne.2.1
  unfold postTree
  by_cases hrt : (ttype == "rust") = true
  · rw [if_pos hrt]
    exact mem_rustStep_of_ne _ _ _ _ s2 hne.2.2.1 hne.2.2.2.1 hne.2.2.2.2
  · rw [if_neg hrt]
    exact s2

theorem mem_postTree_klave (t : FileTree) (pn d an ae au ru ttype : String)
    (c : List Char) (hc : (klaveJsonPath, c) ∈ t) :
    (klaveJsonPath, applyReplacements c (klavePairs pn d)) ∈
      postTree t pn d an ae au ru ttype := by
  have k2 : (klaveJsonPath, applyReplacements c (klavePairs pn d)) ∈ replaceIfExists
      (mapContent t klaveJsonPath (fun c => applyReplacements c (klavePairs pn d)))
      packageJsonPath (packagePairs pn d an ae au ru) :=
    mem_replaceIfExists_of_ne _ _ _ _ _ (mem_mapContent_self _ _ _ _ hc) (by decide)
  unfold postTree
  by_cases hrt : (ttype == "rust") = true
  · rw [if_pos hrt]
    exact mem_rustStep_of_ne _ _ _ _ k2 (by decide) (by decide) (by decide)
  · rw [if_neg hrt]
    exact k2

/- ------------------------------------------------------------------ -/
/- Claim C5: token substitution.                                       -/
/- ------------------------------------------------------------------ -/

/-- C5, counterexample: the claim "applying the same substitution a second
time leaves the file content unchanged" fails as stated.  With the token
`KLAVE_APP_SLUG` in double braces as pattern and that very token followed
by `x` as replacement (the replacement strings are arbitrary user input in
`create_template`), a file consisting of the token alone is rewritten to a
different content by the second application. -/
theorem token_substitution_not_idempotent :
    rustReplace (rustReplace slugToken slugToken (slugToken ++ ['x'])) slugToken
        (slugToken ++ ['x']) ≠
      rustReplace slugToken slugToken (slugToken ++ ['x']) := by decide

/-- C5 (amended): for a nonempty token and a nonempty replacement that
shares no character with the token — as with replacing the slug token by
`demo` — `str::replace` (the loop body of `update_file`) leaves no
occurrence of the token in its output, is idempotent, and leaves
token-free text unchanged (so only token occurrences are altered). -/
theorem token_substitution_disjoint_spec (s pat rep : List Char)
    (hpat : pat ≠ []) (hrep : rep ≠ []) (hd : ∀ a ∈ pat, a ∉ rep) :
    ¬ pat <:+: rustReplace s pat rep ∧
    rustReplace (rustReplace s pat rep) pat rep = rustReplace s pat rep ∧
    (¬ pat <:+: s → rustReplace s pat rep = s) := by
  refine ⟨rustReplace_no_occurrence s pat rep hpat hrep hd, ?_,
    fun h => rustReplace_eq_self s pat rep h⟩
  exact rustReplace_eq_self _ pat rep (rustReplace_no_occurrence s pat rep hpat hrep hd)

/-- C5 witness: the amended claim instantiated on text containing the slug
token twice and the replacement `demo`; both occurrences get replaced and
nothing else changes. -/
theorem token_substitution_disjoint_spec_witness :
    (¬ slugToken <:+: rustReplace sampleText slugToken "demo".data ∧
     rustReplace (rustReplace sampleText slugToken "demo".data) slugToken "demo".data =
       rustReplace sampleText slugToken "demo".data ∧
     (¬ slugToken <:+: sampleText → rustReplace sampleText slugToken "demo".data = sampleText)) ∧
    rustReplace sampleText slugToken "demo".data = "AdemoBdemoC".data :=
  ⟨token_substitution_disjoint_spec sampleText slugToken "demo".data (by decide) (by decide)
      (by decide),
   by decide⟩

/- ------------------------------------------------------------------ -/
/- Claim C2: which files the substitution map reaches.                 -/
/- ------------------------------------------------------------------ -/

/-- C2, counterexample: the substitution map is not applied to every
allow-listed text file of the extracted tree.  Scaffolding the sample
AssemblyScript tree succeeds, yet the `.ts` source file — a text file
containing the slug token — is carried over (under its renamed directory)
with its content unchanged, token included; only `klave.json` was
rewritten.  There is no extension allow-list in the code at all. -/
theorem template_substitution_skips_text_file :
    ∃ t', create_template sampleAsTree "demo" "d" "a" "e" "u" "r" "assemblyscript" = .ok t' ∧
      ("apps/demo/index.ts".data, "slug: \x7b\x7bKLAVE_APP_SLUG\x7d\x7d end".data) ∈ t' ∧
      slugToken <:+: "slug: \x7b\x7bKLAVE_APP_SLUG\x7d\x7d end".data :=
  ⟨_, rfl, by decide, by decide⟩

/-- C2 (amended): `create_template` applies the substitution pairs only to
a fixed set of files selected by name — `klave.json` always, and
`package.json`, `Cargo.toml`, `apps/rust-template/Cargo.toml`,
`apps/rust-template/src/bindings.rs` when present — never by extension;
every other file of the tree is carried over (modulo the placeholder
directory rename) with its content untouched, while `klave.json` gets the
substitution applied. -/
theorem template_substitution_named_files_only
    (t : FileTree) (pn d an ae au ru ttype : String)
    (hk : fileExists t klaveJsonPath = true)
    (hph : dirPresent t (placeholderDir ttype) = true) :
    ∃ t', create_template t pn d an ae au ru ttype = .ok t' ∧
      (∀ p c, (p, c) ∈ t → p ∉ namedPaths →
        (renameKey (placeholderDir ttype) ("apps/".data ++ pn.data) p, c) ∈ t') ∧
      (∀ c, (klaveJsonPath, c) ∈ t →
        (klaveJsonPath, applyReplacements c (klavePairs pn d)) ∈ t') := by
  have hpr3 : dirPresent (postTree t pn d an ae au ru ttype) (placeholderDir ttype) = true := by
    rw [dirPresent_postTree]
    exact hph
  have hok : create_template t pn d an ae au ru ttype =
      .ok ((postTree t pn d an ae au ru ttype).map
        (fun kv => (renameKey (placeholderDir ttype) ("apps/".data ++ pn.data) kv.1, kv.2))) := by
    rw [create_template_eq t pn d an ae au ru ttype hk]
    unfold renameDir
    rw [if_pos hpr3]
  refine ⟨_, hok, ?_, ?_⟩
  · intro p c hmem hnp
    exact List.mem_map_of_mem _ (mem_postTree_of_ne t pn d an ae au ru ttype p c hmem hnp)
  · intro c hc
    have himg := List.mem_map_of_mem
      (fun kv : FilePath' × List Char =>
        (renameKey (placeholderDir ttype) ("apps/".data ++ pn.data) kv.1, kv.2))
      (mem_postTree_klave t pn d an ae au ru ttype c hc)
    have hid : renameKey (placeholderDir ttype) ("apps/".data ++ pn.data) klaveJsonPath =
        klaveJsonPath := by
      by_cases hrt : (ttype == "rust") = true
      · unfold placeholderDir
        rw [if_pos hrt]
        exact renameKey_eq_self _ _ _ (by decide)
          (not_prefix_of_isPrefixOf_eq_false (by decide))
      · unfold placeholderDir
        rw [if_neg hrt]
        exact renameKey_eq_self _ _ _ (by decide)
          (not_prefix_of_isPrefixOf_eq_false (by decide))
    simp only at himg
    rw [hid] at himg
    exact himg

/-- C2 witness: the amended claim on the sample AssemblyScript tree and
the project name `demo`. -/
theorem template_substitution_named_files_only_witness :
    ∃ t', create_template sampleAsTree "demo" "d" "a" "e" "u" "r" "assemblyscript" = .ok t' ∧
      (∀ p c, (p, c) ∈ sampleAsTree → p ∉ namedPaths →
        (renameKey (placeholderDir "assemblyscript") ("apps/".data ++ "demo".data) p, c) ∈ t') ∧
      (∀ c, (klaveJsonPath, c) ∈ sampleAsTree →
        (klaveJsonPath, applyReplacements c (klavePairs "demo" "d")) ∈ t') :=
  template_substitution_named_files_only sampleAsTree "demo" "d" "a" "e" "u" "r"
    "assemblyscript" (by decide) (by decide)

/- ------------------------------------------------------------------ -/
/- Claim C6: the placeholder rename.                                   -/
/- ------------------------------------------------------------------ -/

/-- C6, counterexample: for the project name `rust-template` — equal to
the placeholder directory name — scaffolding the sample rust tree
succeeds, yet the template's placeholder application directory is still
present afterwards (the rename is a no-op), contradicting the claim for
"every project name". -/
theorem scaffold_placeholder_name_collision :
    ∃ t', create_template sampleRustTree "rust-template" "d" "a" "e" "u" "r" "rust" = .ok t' ∧
      dirPresent t' rustTemplateDir = true :=
  ⟨_, rfl, by decide⟩

/-- C6 (amended): for every project name whose directory `apps/<name>`
neither equals nor is nested inside the placeholder directory nor vice
versa (in particular any slash-free name other than the placeholder name),
successful scaffolding leaves `apps/<name>` present and the placeholder
directory absent; and when the placeholder directory is missing after
extraction (with `klave.json` present, so the earlier steps succeed),
`create_template` fails with the App-directory-not-found error. -/
theorem scaffold_rename_spec (t : FileTree) (pn d an ae au ru ttype : String)
    (hk : fileExists t klaveJsonPath = true)
    (h1 : ¬ (placeholderDir ttype ++ ['/']) <+: ("apps/".data ++ pn.data ++ ['/']))
    (h2 : ¬ ("apps/".data ++ pn.data ++ ['/']) <+: (placeholderDir ttype ++ ['/'])) :
    (dirPresent t (placeholderDir ttype) = true →
      ∃ t', create_template t pn d an ae au ru ttype = .ok t' ∧
        dirPresent t' (placeholderDir ttype) = false ∧
        dirPresent t' ("apps/".data ++ pn.data) = true) ∧
    (dirPresent t (placeholderDir ttype) = false →
      create_template t pn d an ae au ru ttype =
        .error (.appDirMissing (placeholderDir ttype))) := by
  constructor
  · intro hph
    have hpr3 : dirPresent (postTree t pn d an ae au ru ttype) (placeholderDir ttype) = true := by
      rw [dirPresent_postTree]
      exact hph
    have hok : create_template t pn d an ae au ru ttype =
        .ok ((postTree t pn d an ae au ru ttype).map
          (fun kv => (renameKey (placeholderDir ttype) ("apps/".data ++ pn.data) kv.1, kv.2))) := by
      rw [create_template_eq t pn d an ae au ru ttype hk]
      unfold renameDir
      rw [if_pos hpr3]
    refine ⟨_, hok, ?_, ?_⟩
    · unfold dirPresent
      rw [List.any_eq_false]
      intro kv hkv
      rcases List.mem_map.mp hkv with ⟨kv0, _, rfl⟩
      intro hcontra
      exact Bool.false_ne_true
        ((renameKey_not_in_old (placeholderDir ttype) ("apps/".data ++ pn.data) kv0.1
          h1 h2).symm.trans hcontra)
    · unfold dirPresent
      rw [List.any_eq_true]
      unfold dirPresent at hpr3
      rcases List.any_eq_true.mp hpr3 with ⟨kv0, hkv0, hpred⟩
      refine ⟨(renameKey (placeholderDir ttype) ("apps/".data ++ pn.data) kv0.1, kv0.2),
        List.mem_map_of_mem _ hkv0, ?_⟩
      exact renameKey_in_new (placeholderDir ttype) ("apps/".data ++ pn.data) kv0.1 hpred
  · intro habs
    rw [create_template_eq t pn d an ae au ru ttype hk]
    unfold renameDir
    rw [if_neg ?_]
    rw [dirPresent_postTree, habs]
    exact Bool.false_ne_true

/-- C6 witness: the amended claim on the sample rust tree with the project
name `demo`. -/
theorem scaffold_rename_spec_witness :
    ∃ t', create_template sampleRustTree "demo" "d" "a" "e" "u" "r" "rust" = .ok t' ∧
      dirPresent t' (placeholderDir "rust") = false ∧
      dirPresent t' ("apps/".data ++ "demo".data) = true :=
  (scaffold_rename_spec sampleRustTree "demo" "d" "a" "e" "u" "r" "rust" (by decide)
    (by decide) (by decide)).1 (by decide)

/- ------------------------------------------------------------------ -/
/- Claim C8: the GitHub profile lookup.                                -/
/- ------------------------------------------------------------------ -/

/-- C8: `find_github_profile_url` always returns a string — the empty
string for an empty email, a request error, a malformed response, or a
response without a login — and a profile URL exactly when the decoded
search response carries a login in its first item. -/
theorem github_profile_lookup_total (email : String) (net : NetOutcome) :
    (email = "" → find_github_profile_url email net = "") ∧
    (net = .reqError → find_github_profile_url email net = "") ∧
    (net = .response none → find_github_profile_url email net = "") ∧
    (∀ j, net = .response (some j) → firstLoginOf j = none →
      find_github_profile_url email net = "") ∧
    (∀ j login, net = .response (some j) → firstLoginOf j = some login → email ≠ "" →
      find_github_profile_url email net = "https://github.com/" ++ login) := by
  unfold find_github_profile_url
  by_cases he : email = ""
  · rw [if_pos he]
    exact ⟨fun _ => rfl, fun _ => rfl, fun _ => rfl, fun j _ _ => rfl,
      fun j login _ _ hne => absurd he hne⟩
  · rw [if_neg he]
    refine ⟨fun h => absurd h he, ?_, ?_, ?_, ?_⟩
    · intro h
      subst h
      rfl
    · intro h
      subst h
      rfl
    · intro j h hl
      subst h
      simp [hl]
    · intro j login h hl _
      subst h
      simp [hl]

/-- C8 witness: a successful lookup for a response carrying `octocat`, and
the empty-email short-circuit. -/
theorem github_profile_lookup_total_witness :
    find_github_profile_url "a@b.c" (.response (some sampleSearchJson)) =
      "https://github.com/octocat" ∧
    find_github_profile_url "" (.response (some sampleSearchJson)) = "" :=
  ⟨(github_profile_lookup_total "a@b.c" (.response (some sampleSearchJson))).2.2.2.2
      sampleSearchJson "octocat" rfl (by decide) (by decide),
   (github_profile_lookup_total "" (.response (some sampleSearchJson))).1 rfl⟩

/- ------------------------------------------------------------------ -/
/- Claim C9: the create command's klave.json guard.                    -/
/- ------------------------------------------------------------------ -/

/-- C9: when `klave.json` exists in the working directory, the create
command returns the "Already in a Klave project" error having performed no
event at all — no prompt, no git-config read, no network lookup, no
directory creation, no template extraction. -/
theorem create_guard_no_side_effects (name templateType : Option String)
    (noGit noInstall : Bool) (dir : Option String) (env : CreateEnv) (templateOk : Bool) :
    createExecute true name templateType noGit noInstall dir env templateOk =
      ([], some .alreadyInKlaveProject) := rfl

/- ------------------------------------------------------------------ -/
/- Claim C10: resolve_package_manager.                                 -/
/- ------------------------------------------------------------------ -/

/-- C10: `resolve_package_manager` always returns `yarn`, `pnpm` or `npm`:
`yarn.lock` selects yarn, else `pnpm-lock.yaml` selects pnpm, else
`package-lock.json` selects npm, and npm is the default with no lockfile. -/
theorem resolve_package_manager_spec (env : BuildEnv) :
    (resolve_package_manager env = "yarn" ∨ resolve_package_manager env = "pnpm" ∨
      resolve_package_manager env = "npm") ∧
    (env.yarnLock = true → resolve_package_manager env = "yarn") ∧
    (env.yarnLock = false → env.pnpmLock = true → resolve_package_manager env = "pnpm") ∧
    (env.yarnLock = false → env.pnpmLock = false → env.packageLock = true →
      resolve_package_manager env = "npm") ∧
    (env.yarnLock = false → env.pnpmLock = false → env.packageLock = false →
      resolve_package_manager env = "npm") := by
  refine ⟨?_, ?_, ?_, ?_, ?_⟩
  · cases hy : env.yarnLock <;> cases hp : env.pnpmLock <;> cases hl : env.packageLock <;>
      simp [resolve_package_manager, hy, hp, hl]
  · intro hy
    simp [resolve_package_manager, hy]
  · intro hy hp
    simp [resolve_package_manager, hy, hp]
  · intro hy hp hl
    simp [resolve_package_manager, hy, hp, hl]
  · intro hy hp hl
    simp [resolve_package_manager, hy, hp, hl]

/-- C10 witness: with no lockfile present the default is npm. -/
theorem resolve_package_manager_spec_witness :
    resolve_package_manager envExitOne = "npm" :=
  (resolve_package_manager_spec envExitOne).2.2.2.2 rfl rfl rfl

/- ------------------------------------------------------------------ -/
/- Claim C1: exit code versus subprocess exit status.                  -/
/- ------------------------------------------------------------------ -/

/-- C1, behaviour of the code at the failing input: one rust application
whose `cargo component build` subprocess spawns successfully and exits
with status 1.  `run_command` returns `Ok` whenever the spawn succeeds —
the exit status of the child is never consulted — so the application is
recorded as a success and the process exit code is 0, although the build
subprocess exited non-zero. -/
theorem build_nonzero_exit_recorded_success :
    buildExecute cfgOneApp none true envExitOne =
      .ok ⟨[⟨"app1", true, "rust"⟩], [cargoBuildCmd "app1"], 1, 1⟩ ∧
    envExitOne.spawn (cargoBuildCmd "app1") = .exited 1 ∧
    buildExitCode cfgOneApp none true envExitOne = 0 :=
  ⟨rfl, rfl, rfl⟩

/- ------------------------------------------------------------------ -/
/- Claim C7: applications with no marker file.                         -/
/- ------------------------------------------------------------------ -/

/-- C7: an application whose directory contains neither `Cargo.toml` nor
`tsconfig.json` is classified `unknown` and contributes exactly one failed
result, with no subprocess spawned; `processApp` is a total function, so
no crash is possible. -/
theorem unknown_app_type_no_spawn (env : BuildEnv) (tools : Tools) (pm : String) (a : Json)
    (h1 : (env.dirInfo (appDirOf a)).hasCargoToml = false)
    (h2 : (env.dirInfo (appDirOf a)).hasTsconfig = false) :
    (processApp env tools pm a).1.success = false ∧
    (processApp env tools pm a).1.appType = "unknown" ∧
    (processApp env tools pm a).2 = [] := by
  cases hdir : (env.dirInfo (appDirOf a)).dirExists <;>
    simp [processApp, hdir, h1, h2]

/-- C7 witness: the marker-free environment on the sample application. -/
theorem unknown_app_type_no_spawn_witness :
    (processApp envUnknownApp ⟨true, true, true, true⟩ "npm" appOne).1.success = false ∧
    (processApp envUnknownApp ⟨true, true, true, true⟩ "npm" appOne).1.appType = "unknown" ∧
    (processApp envUnknownApp ⟨true, true, true, true⟩ "npm" appOne).2 = [] :=
  unknown_app_type_no_spawn envUnknownApp ⟨true, true, true, true⟩ "npm" appOne rfl rfl

/- ------------------------------------------------------------------ -/
/- Claim C3: filtering with the --app option.                          -/
/- ------------------------------------------------------------------ -/

/-- C3, counterexample: with a manifest whose `applications` array lists
two entries with the same slug `app1`, filtering by `app1` attempts two
builds, not exactly one: the filter keeps every matching entry. -/
theorem build_filter_duplicate_slug_two_builds :
    Except.map Summary.total (buildExecute cfgDupApps (some "app1") true envExitOne) =
      .ok 2 := rfl

/-- C3 (amended): filtering attempts one build per matching manifest entry
— exactly one when exactly one entry matches — and when no entry matches,
the command fails with the error enumerating, for each application, its
slug (or its name when the slug is absent). -/
theorem build_filter_match_spec (config : Json) (apps : List Json) (name : String)
    (skipChecks : Bool) (env : BuildEnv)
    (hcfg : config.getField "applications" = some (.arr apps)) :
    (apps.filter (matchesFilter name) = [] →
      buildExecute config (some name) skipChecks env =
        .error (.appNotFound name (knownApps apps))) ∧
    (∀ s, buildExecute config (some name) skipChecks env = .ok s →
      s.total = (apps.filter (matchesFilter name)).length) := by
  constructor
  · intro hempty
    unfold buildExecute selectApps
    rw [hcfg]
    simp [hempty]
  · intro s hs
    unfold buildExecute selectApps at hs
    rw [hcfg] at hs
    by_cases hemp : (apps.filter (matchesFilter name)).isEmpty = true
    · simp [hemp] at hs
    · simp only [hemp, Bool.false_eq_true, if_false] at hs
      cases htg : toolGate env skipChecks (apps.filter (matchesFilter name)) with
      | error e =>
        rw [htg] at hs
        simp at hs
      | ok tools =>
        rw [htg] at hs
        cases hdg : depGate env skipChecks (apps.filter (matchesFilter name)) with
        | error e =>
          rw [hdg] at hs
          simp at hs
        | ok u =>
          rw [hdg] at hs
          simp only [Except.ok.injEq] at hs
          subst hs
          simp [orchestrate]

/-- C3 witness: filtering by the absent slug `zzz` yields the enumerating
error; filtering by `app1` yields a summary whose total is the number of
matching entries (one). -/
theorem build_filter_match_spec_witness :
    buildExecute cfgOneApp (some "zzz") true envExitOne =
      .error (.appNotFound "zzz" (knownApps [appOne])) ∧
    Summary.total ⟨[⟨"app1", true, "rust"⟩], [cargoBuildCmd "app1"], 1, 1⟩ =
      ([appOne].filter (matchesFilter "app1")).length :=
  ⟨(build_filter_match_spec cfgOneApp [appOne] "zzz" true envExitOne rfl).1 rfl,
   (build_filter_match_spec cfgOneApp [appOne] "app1" true envExitOne rfl).2
     ⟨[⟨"app1", true, "rust"⟩], [cargoBuildCmd "app1"], 1, 1⟩ rfl⟩

/- ------------------------------------------------------------------ -/
/- Claim C4: one result per application.                               -/
/- ------------------------------------------------------------------ -/

/-- C4, counterexample: for a manifest whose `applications` array is
empty (N = 0), the command errors out before the build loop and no summary
reporting a total is ever produced. -/
theorem build_empty_manifest_errors :
    buildExecute cfgNoApps none true envExitOne = .error .noApplications := rfl

/-- C4 (amended): for every manifest with N ≥ 1 applications and no
filter, when the run reaches the build loop (the tool gate and the
dependency gate do not abort), the orchestrator records exactly one result
per application — N in total, reported as the summary's total — and each
application's result is computed by `processApp` independently of every
other application's outcome. -/
theorem build_all_apps_processed (config : Json) (apps : List Json) (skipChecks : Bool)
    (env : BuildEnv) (tools : Tools)
    (hcfg : config.getField "applications" = some (.arr apps))
    (hne : apps ≠ [])
    (htools : toolGate env skipChecks apps = .ok tools)
    (hdep : depGate env skipChecks apps = .ok ()) :
    ∃ s, buildExecute config none skipChecks env = .ok s ∧
      s.total = apps.length ∧
      s.results = apps.map (fun a => (processApp env tools
        (if env.hasPackageJson then resolve_package_manager env else "") a).1) := by
  have hie : apps.isEmpty = false := by
    cases apps with
    | nil => exact absurd rfl hne
    | cons a rest => rfl
  unfold buildExecute selectApps
  rw [hcfg]
  simp only [hie, Bool.false_eq_true, if_false, htools, hdep]
  refine ⟨_, rfl, ?_, ?_⟩
  · simp [orchestrate]
  · simp [orchestrate, List.map_map, Function.comp]

/-- C4 witness: the amended claim on the one-application manifest. -/
theorem build_all_apps_processed_witness :
    ∃ s, buildExecute cfgOneApp none true envExitOne = .ok s ∧
      s.total = [appOne].length ∧
      s.results = [appOne].map (fun a => (processApp envExitOne ⟨true, true, true, true⟩
        (if envExitOne.hasPackageJson then resolve_package_manager envExitOne else "") a).1) :=
  build_all_apps_processed cfgOneApp [appOne] true envExitOne ⟨true, true, true, true⟩
    rfl (List.cons_ne_nil _ _) rfl rfl
